import Mathlib

/-!
# BNPL service: shallow embedding and verification

Shallow embedding of the core logic of the `bnpl_service` Django app
(`models.py`, `utils.py`, `tasks.py`, `views.py`, `serializers.py`).

Modelling conventions:
* monetary amounts are integers in cents (the source uses `DecimalField`
  with `decimal_places=2`);
* calendar dates (`due_date`, "today") are integers counting days;
* timestamps (`paid_at`, `processed_at`, idempotency expiry, "now") are
  integers; the idempotency TTL of 24 hours is the constant `idemTTL`
  measured on that timestamp axis;
* database tables are lists of records; primary keys are `Nat`
  (or `String` for `User.user_id` and idempotency keys);
* fresh primary keys generated by `uuid4` in the source are passed in as
  explicit parameters;
* a Django queryset `filter` is a `List.filter`, `get`/`get_object_or_404`
  is a `List.find?`, and a raised exception inside `@transaction.atomic`
  rolls the state back to the state at entry.
-/

namespace BNPL

/-- `UserStatus` choices from `models.py`. -/
inductive UserStatus
  | NORMAL
  | DEBT_USER
  deriving Repr, DecidableEq

/-- `InstallmentStatus` choices from `models.py`. -/
inductive InstallmentStatus
  | UPCOMING
  | PAID
  | OVERDUE
  deriving Repr, DecidableEq

/-- `PlanStatus` choices from `models.py`. -/
inductive PlanStatus
  | ACTIVE
  | COMPLETED
  deriving Repr, DecidableEq

/-- `RefundStatus` choices from `models.py`. -/
inductive RefundStatus
  | PENDING
  | APPROVED
  | REJECTED
  | COMPLETED
  deriving Repr, DecidableEq

/-- The `User` model (only the fields the core logic reads). -/
structure User where
  user_id : String
  status : UserStatus
  deriving Repr, DecidableEq

/-- The `BNPLPlan` model; `total_amount` in cents. -/
structure BNPLPlan where
  id : Nat
  user_id : String
  total_amount : Int
  status : PlanStatus
  deriving Repr, DecidableEq

/-- The `Installment` model; `amount_due` in cents, `due_date` in days. -/
structure Installment where
  id : Nat
  plan_id : Nat
  amount_due : Int
  due_date : Int
  status : InstallmentStatus
  paid_at : Option Int
  deriving Repr, DecidableEq

/-- The `Refund` model; `amount` in cents. -/
structure Refund where
  id : Nat
  user_id : String
  transaction_id : String
  amount : Int
  status : RefundStatus
  reason : String
  processed_at : Option Int
  deriving Repr, DecidableEq

/-- Serialized response payloads that the views cache under idempotency
keys: the plan payload rendered by `BNPLPlanSerializer` and the repayment
summary dict built in `DebtManagementView.post`.  Both are non-empty JSON
objects, hence always truthy in the `if cached_response:` tests. -/
inductive ResponseData
  | planPayload (plan : BNPLPlan) (installments : List Installment) (user : User)
  | repayPayload (paid_installments : Nat) (user_status : UserStatus)
  deriving Repr, DecidableEq

/-- The `IdempotencyKey` model. -/
structure IdemEntry where
  key : String
  response_data : ResponseData
  expires_at : Int
  deriving Repr, DecidableEq

/-- The relational store: one list per table. -/
structure DB where
  users : List User
  plans : List BNPLPlan
  installments : List Installment
  refunds : List Refund
  idem_keys : List IdemEntry
  deriving Repr, DecidableEq

/-- `expiry_hours=24` in `save_idempotency_response`, measured on the
timestamp axis (hours). -/
def idemTTL : Int := 24

/-- `utils.check_idempotency`: look the key up; if the entry has expired
(`expires_at < now`) delete it and report a miss, otherwise return the
cached response.  Returns the (possibly mutated) store and the lookup
result. -/
def check_idempotency (db : DB) (key : String) (now : Int) :
    DB × Option ResponseData :=
  match db.idem_keys.find? (fun e => e.key == key) with
  | none => (db, none)
  | some e =>
      if e.expires_at < now then
        ({ db with idem_keys := db.idem_keys.filter (fun x => !(x.key == key)) },
         none)
      else
        (db, some e.response_data)

/-- `utils.save_idempotency_response`: create an `IdempotencyKey` row with
`expires_at = now + 24h`.  The source wraps the create in `try/except` and
logs failures, so a unique-key collision leaves the store unchanged. -/
def save_idempotency_response (db : DB) (key : String) (rdata : ResponseData)
    (now : Int) : DB :=
  if db.idem_keys.any (fun e => e.key == key) then db
  else
    { db with
      idem_keys := db.idem_keys ++ [⟨key, rdata, now + idemTTL⟩] }

/-- `utils.clean_expired_idempotency_keys`: bulk-delete entries with
`expires_at < now`; returns the new store and the deleted count. -/
def clean_expired_idempotency_keys (db : DB) (now : Int) : DB × Nat :=
  let kept := db.idem_keys.filter (fun e => ¬ e.expires_at < now)
  ({ db with idem_keys := kept }, db.idem_keys.length - kept.length)

/-- The user owning an installment, through its plan
(`installment.plan.user` / the `plan__user` join). -/
def ownerOf (plans : List BNPLPlan) (inst : Installment) : Option String :=
  (plans.find? (fun p => p.id == inst.plan_id)).map (fun p => p.user_id)

/-- `Installment.objects.filter(plan__user=user, status=OVERDUE).exists()`
over explicit plan and installment tables. -/
def hasOverdueL (plans : List BNPLPlan) (insts : List Installment)
    (uid : String) : Bool :=
  insts.any (fun i => ownerOf plans i == some uid && i.status == .OVERDUE)

/-- `Installment.objects.filter(plan__user=user, status=OVERDUE).exists()`. -/
def hasOverdue (db : DB) (uid : String) : Bool :=
  hasOverdueL db.plans db.installments uid

/-- Quotient `p / q` rounded to the nearest integer, ties to even
(banker's rounding): the effect of Python `Decimal` division followed by
`quantize` to 2 decimal places when the operands are amounts in cents.
Requires `q > 0` for the intended reading. -/
def roundHalfEvenDiv (p q : Int) : Int :=
  let d := p / q
  let r := p % q
  if 2 * r < q then d
  else if q < 2 * r then d + 1
  else if d % 2 == 0 then d else d + 1

/-- Input to `BNPLPlanViewSet.create`: the request body parsed by
`CreateBNPLPlanSerializer` plus the optional `X-Idempotency-Key` header.
`total_amount` is in cents (the serializer field has 2 decimal places, so
a cent integer is exact). -/
structure CreatePlanRequest where
  user_id : String
  total_amount : Int
  installment_count : Nat
  idempotency_key : Option String
  deriving Repr, DecidableEq

/-- Outcomes of `BNPLPlanViewSet.create`, tagged by the HTTP branch taken:
`cached` = 200 replay, `created` = 201, `validationError` = 400 raised by
`CreateBNPLPlanSerializer`, `notFound` = 404 from `get_object_or_404`,
`forbidden` = the 403 DEBT_USER response in the view body. -/
inductive PlanCreateResult
  | cached (r : ResponseData)
  | created (r : ResponseData)
  | validationError
  | notFound
  | forbidden
  deriving Repr, DecidableEq

/-- `CreateBNPLPlanSerializer` validation: `total_amount` is a positive
decimal with at most 12 digits, `installment_count` in `[1, 12]`, and
`validate_user_id` requires the user to exist and not be a `DEBT_USER`. -/
def planSerializerOk (users : List User) (req : CreatePlanRequest) : Bool :=
  1 ≤ req.total_amount && req.total_amount < 10 ^ 12 &&
  1 ≤ req.installment_count && req.installment_count ≤ 12 &&
  match users.find? (fun u => u.user_id == req.user_id) with
  | none => false
  | some u => u.status != .DEBT_USER

/-- The installment schedule the plan-creation loop builds: one
`UPCOMING` installment per index `i < installment_count`, due at
`today + 30 * (i + 1)`, each for `total_amount / installment_count`
(banker's rounding to cents). -/
def planInstallments (req : CreatePlanRequest) (today : Int)
    (planId instBase : Nat) : List Installment :=
  (List.range req.installment_count).map (fun i =>
    ⟨instBase + i, planId,
     roundHalfEvenDiv req.total_amount req.installment_count,
     today + 30 * (i + 1), .UPCOMING, none⟩)

/-- The body of `BNPLPlanViewSet.create` after the idempotency-cache
check: serializer validation, the (dead) 404/403 re-checks, and the
atomic creation of the plan with its installment schedule.  `db0` is the
state the transaction rolls back to when the serializer or
`get_object_or_404` raises; `db1` the state after the cache lookup. -/
def create_plan_core (db0 db1 : DB) (req : CreatePlanRequest)
    (today now : Int) (planId instBase : Nat) : DB × PlanCreateResult :=
  if ¬ planSerializerOk db1.users req then (db0, .validationError)
  else
    match db1.users.find? (fun u => u.user_id == req.user_id) with
    | none => (db0, .notFound)
    | some user =>
        if user.status == .DEBT_USER then (db1, .forbidden)
        else
          let plan : BNPLPlan :=
            ⟨planId, user.user_id, req.total_amount, .ACTIVE⟩
          let insts := planInstallments req today planId instBase
          let rdata := ResponseData.planPayload plan insts user
          let db2 :=
            { db1 with
              plans := db1.plans ++ [plan],
              installments := db1.installments ++ insts }
          let db3 :=
            match req.idempotency_key with
            | some k => save_idempotency_response db2 k rdata now
            | none => db2
          (db3, .created rdata)

/-- `BNPLPlanViewSet.create` (`views.py`).  `today` is `date.today()`,
`now` the timestamp used for the idempotency expiry; `planId` and
`instBase` supply the fresh `uuid4` primary keys (installment `i` gets id
`instBase + i`).  A serializer `ValidationError` or `Http404` raised
inside `@transaction.atomic` rolls back to the entry state `db`. -/
def create_plan (db : DB) (req : CreatePlanRequest) (today now : Int)
    (planId instBase : Nat) : DB × PlanCreateResult :=
  match req.idempotency_key with
  | some k =>
      match check_idempotency db k now with
      | (db1, some r) => (db1, .cached r)
      | (db1, none) => create_plan_core db db1 req today now planId instBase
  | none => create_plan_core db db req today now planId instBase

/-- Outcomes of `DebtManagementView.post`: `cached` = 200 replay, `ok` =
200 success, `notFound` = 404 user, `validationError` = 400 raised by
`RepaymentSerializer`, `badRequest` = the in-view 400 "Some installments
are invalid or not overdue". -/
inductive RepayResult
  | cached (r : ResponseData)
  | ok (r : ResponseData)
  | notFound
  | validationError
  | badRequest
  deriving Repr, DecidableEq

/-- `RepaymentSerializer` validation: at least one id, every id resolves
to an existing installment (the distinct matched count must equal the
request list's length, so duplicate or unknown ids fail), and every
matched installment has status `OVERDUE`.  Ownership is *not* checked
here. -/
def repaySerializerOk (insts : List Installment) (ids : List Nat) : Bool :=
  1 ≤ ids.length &&
  (insts.filter (fun i => ids.contains i.id)).length == ids.length &&
  (insts.filter (fun i => ids.contains i.id)).all
    (fun i => i.status == .OVERDUE)

/-- The queryset of `DebtManagementView.post`: installments whose id is in
the request list, owned by `uid`, with status `OVERDUE`. -/
def repayMatch (plans : List BNPLPlan) (uid : String) (ids : List Nat)
    (i : Installment) : Bool :=
  ids.contains i.id && ownerOf plans i == some uid && i.status == .OVERDUE

/-- The body of `DebtManagementView.post` after the idempotency-cache
check: user 404, serializer validation, the all-or-nothing count check;
on success all matched installments become `PAID` with `paid_at = now`,
and the user is flipped back to `NORMAL` when no overdue installment
remains and the user was a `DEBT_USER`.  `db0` is the state the
transaction rolls back to when a serializer error or `Http404` is raised;
`db1` the state after the cache lookup. -/
def repay_core (db0 db1 : DB) (uid : String) (ids : List Nat)
    (idempotency_key : Option String) (now : Int) : DB × RepayResult :=
  match db1.users.find? (fun u => u.user_id == uid) with
  | none => (db0, .notFound)
  | some user =>
      if ¬ repaySerializerOk db1.installments ids then (db0, .validationError)
      else
        let matched :=
          db1.installments.filter (repayMatch db1.plans uid ids)
        if ¬ matched.length == ids.length then (db1, .badRequest)
        else
          let db2 :=
            { db1 with
              installments := db1.installments.map (fun i =>
                if repayMatch db1.plans uid ids i then
                  { i with status := .PAID, paid_at := some now }
                else i) }
          let remaining_overdue := hasOverdue db2 uid
          let db3 :=
            if !remaining_overdue && user.status == .DEBT_USER then
              { db2 with
                users := db2.users.map (fun u =>
                  if u.user_id == uid then { u with status := .NORMAL }
                  else u) }
            else db2
          let user_status :=
            if !remaining_overdue && user.status == .DEBT_USER then
              UserStatus.NORMAL
            else user.status
          let rdata := ResponseData.repayPayload ids.length user_status
          let db4 :=
            match idempotency_key with
            | some k => save_idempotency_response db3 k rdata now
            | none => db3
          (db4, .ok rdata)

/-- `DebtManagementView.post` (`views.py`): the idempotency-cache check
followed by the repayment body. -/
def repay (db : DB) (uid : String) (ids : List Nat)
    (idempotency_key : Option String) (now : Int) : DB × RepayResult :=
  match idempotency_key with
  | some k =>
      match check_idempotency db k now with
      | (db1, some r) => (db1, .cached r)
      | (db1, none) => repay_core db db1 uid ids idempotency_key now
  | none => repay_core db db uid ids idempotency_key now

/-- Predicate for the sweep queryset: `status=UPCOMING, due_date < today`. -/
def sweepDue (today : Int) (i : Installment) : Bool :=
  i.status == .UPCOMING && i.due_date < today

/-- `tasks.check_overdue_payments`: mark every `UPCOMING` installment with
`due_date < today` as `OVERDUE`, then set every touched user who is not
already a `DEBT_USER` to `DEBT_USER`.  Returns the new store, the number
of updated installments, and the number of affected users. -/
def sweep_overdue (db : DB) (today : Int) : DB × Nat × Nat :=
  let due := db.installments.filter (sweepDue today)
  if due.isEmpty then (db, 0, 0)
  else
    let insts' := db.installments.map (fun i =>
      if sweepDue today i then { i with status := .OVERDUE } else i)
    let affected := (due.filterMap (ownerOf db.plans)).dedup
    let users' := db.users.map (fun u =>
      if affected.contains u.user_id && u.status != .DEBT_USER then
        { u with status := .DEBT_USER }
      else u)
    ({ db with installments := insts', users := users' },
     due.length, affected.length)

/-- Outcomes of `RefundViewSet.create`: `existing` = 200 idempotent
replay, `created` = 201, `validationError` = 400 from
`CreateRefundSerializer`, `notFound` = 404 from `get_object_or_404`. -/
inductive RefundCreateResult
  | existing (r : Refund)
  | created (r : Refund)
  | validationError
  | notFound
  deriving Repr, DecidableEq

/-- `CreateRefundSerializer` validation: non-blank `transaction_id` that
no existing refund uses, an existing user, and a positive 2-decimal
amount of at most 12 digits. -/
def refundSerializerOk (refunds : List Refund) (users : List User)
    (uid txn : String) (amount : Int) : Bool :=
  uid != "" && txn != "" &&
  !(refunds.any (fun r => r.transaction_id == txn)) &&
  users.any (fun u => u.user_id == uid) &&
  1 ≤ amount && amount < 10 ^ 12

/-- `RefundViewSet.create` (`views.py`): if the request carries a truthy
`transaction_id` that an existing refund already uses, return that refund
with HTTP 200; otherwise validate and create a `PENDING` refund (fresh
`uuid4` primary key passed in as `newId`). -/
def create_refund (db : DB) (uid txn : String) (amount : Int)
    (reason : String) (newId : Nat) : DB × RefundCreateResult :=
  let hit :=
    if txn != "" then db.refunds.find? (fun r => r.transaction_id == txn)
    else none
  match hit with
  | some r => (db, .existing r)
  | none =>
      if ¬ refundSerializerOk db.refunds db.users uid txn amount then
        (db, .validationError)
      else
        match db.users.find? (fun u => u.user_id == uid) with
        | none => (db, .notFound)
        | some user =>
            let refund : Refund :=
              ⟨newId, user.user_id, txn, amount, .PENDING, reason, none⟩
            ({ db with refunds := db.refunds ++ [refund] }, .created refund)

/-- Outcomes of the refund transition endpoints: `ok` = 200 with the
updated refund, `invalidState` = 400 (status is not `PENDING`),
`notFound` = 404. -/
inductive RefundActionResult
  | ok (r : Refund)
  | invalidState
  | notFound
  deriving Repr, DecidableEq

/-- Replace the refund with primary key `r.id` by `r`. -/
def saveRefund (db : DB) (r : Refund) : DB :=
  { db with refunds := db.refunds.map (fun x => if x.id == r.id then r else x) }

/-- `RefundViewSet.approve_refund` (`views.py`): only `PENDING` refunds
may be processed; `approve = true` sets `APPROVED`, otherwise `REJECTED`
with the reason overwritten; both stamp `processed_at = now`. -/
def approve_refund (db : DB) (rid : Nat) (approve : Bool) (reason : String)
    (now : Int) : DB × RefundActionResult :=
  match db.refunds.find? (fun r => r.id == rid) with
  | none => (db, .notFound)
  | some refund =>
      if refund.status != .PENDING then (db, .invalidState)
      else
        let refund' :=
          if approve then
            { refund with status := .APPROVED, processed_at := some now }
          else
            { refund with
              status := .REJECTED,
              reason := if reason != "" then "Rejected: " ++ reason
                        else "Rejected",
              processed_at := some now }
        (saveRefund db refund', .ok refund')

/-- `RefundViewSet.cancel_refund` (`views.py`): only `PENDING` refunds may
be cancelled; sets `REJECTED` with reason "Cancelled by user" and stamps
`processed_at = now`. -/
def cancel_refund (db : DB) (rid : Nat) (now : Int) :
    DB × RefundActionResult :=
  match db.refunds.find? (fun r => r.id == rid) with
  | none => (db, .notFound)
  | some refund =>
      if refund.status != .PENDING then (db, .invalidState)
      else
        let refund' :=
          { refund with
            status := .REJECTED,
            reason := "Cancelled by user",
            processed_at := some now }
        (saveRefund db refund', .ok refund')

/-- The Celery task `tasks.process_refund_webhook`: fetch the refund by
primary key (raising if missing); `approved` and `rejected` set the
terminal status and stamp `processed_at`; any other status string leaves
the fields unchanged (the record is re-saved as-is). -/
def process_refund_webhook (db : DB) (rid : Nat) (wstatus : String)
    (merchant_reference : Option String) (now : Int) :
    DB × Option Refund :=
  match db.refunds.find? (fun r => r.id == rid) with
  | none => (db, none)
  | some refund =>
      let refund' :=
        if wstatus == "approved" then
          { refund with status := .APPROVED, processed_at := some now }
        else if wstatus == "rejected" then
          { refund with
            status := .REJECTED,
            reason := "Rejected via webhook: " ++
              (merchant_reference.getD "No reference"),
            processed_at := some now }
        else refund
      (saveRefund db refund', some refund')

/-- The synchronous fallback in `RefundWebhookView.post` (`views.py`,
lines 670-712), reached when Celery is unavailable and `webhook_status`
has already been validated to be one of `approved`, `rejected`, `failed`,
`processing`: take the first user in the table (erroring when there is
none), `get_or_create` a refund keyed by `transaction_id = refund_id`
(with a `PENDING` placeholder as default), then assign the mapped status
and save.  `processed_at` is never written on this path. -/
def webhook_sync (db : DB) (refund_txn : String) (wstatus : String)
    (merchant_reference : Option String) (amount : Int) (newId : Nat) :
    DB × Option Refund :=
  match db.users with
  | [] => (db, none)
  | firstUser :: _ =>
      let found := db.refunds.find? (fun r => r.transaction_id == refund_txn)
      let db1 :=
        match found with
        | some _ => db
        | none =>
            { db with
              refunds := db.refunds ++
                [⟨newId, firstUser.user_id, refund_txn, amount, .PENDING,
                  "Webhook from " ++ (merchant_reference.getD "unknown"),
                  none⟩] }
      let refund :=
        match found with
        | some r => r
        | none =>
            ⟨newId, firstUser.user_id, refund_txn, amount, .PENDING,
             "Webhook from " ++ (merchant_reference.getD "unknown"), none⟩
      let refund' :=
        if wstatus == "approved" then { refund with status := .APPROVED }
        else if wstatus == "rejected" then { refund with status := .REJECTED }
        else if wstatus == "failed" then { refund with status := .REJECTED }
        else if wstatus == "processing" then { refund with status := .PENDING }
        else refund
      (saveRefund db1 refund', some refund')


/-! ## Shared facts about the operations -/

/-- The idempotency lookup never touches the business tables. -/
theorem check_idempotency_fst_tables (db : DB) (key : String) (now : Int) :
    (check_idempotency db key now).1.users = db.users ∧
    (check_idempotency db key now).1.plans = db.plans ∧
    (check_idempotency db key now).1.installments = db.installments ∧
    (check_idempotency db key now).1.refunds = db.refunds := by
  unfold check_idempotency
  cases db.idem_keys.find? (fun e => e.key == key) with
  | none => exact ⟨rfl, rfl, rfl, rfl⟩
  | some e =>
      dsimp only
      split <;> exact ⟨rfl, rfl, rfl, rfl⟩

/-- After a lookup miss, the store holds no entry for the key. -/
theorem check_idempotency_miss_no_entry {db db' : DB} {key : String}
    {now : Int} (h : check_idempotency db key now = (db', none)) :
    db'.idem_keys.find? (fun e => e.key == key) = none := by
  unfold check_idempotency at h
  cases hf : db.idem_keys.find? (fun e => e.key == key) with
  | none =>
      rw [hf] at h
      cases h
      exact hf
  | some e =>
      rw [hf] at h
      dsimp only at h
      split at h
      · cases h
        rw [List.find?_eq_none]
        intro x hx
        have := List.of_mem_filter hx
        simpa using this
      · cases h

/-! ## C7: the idempotency-cache lookup contract -/

/-- A store holding a single cache entry for key "k" expiring at 100. -/
def lookupBoundaryDB : DB :=
  ⟨[], [], [], [], [⟨"k", ResponseData.repayPayload 1 .NORMAL, 100⟩]⟩

/-- C7 (counterexample): the claim says the lookup returns the cached
response exactly when an entry exists and `now < expires_at`.  At the
boundary `now = expires_at` the entry exists, `now < expires_at` fails,
yet `check_idempotency` still returns the cached response (the source
tests `expires_at < now` for expiry), so the claim is false. -/
theorem C7_lookup_boundary_counterexample :
    (lookupBoundaryDB.idem_keys.find? (fun e => e.key == "k")).isSome = true
    ∧ ¬ ((100 : Int) < 100)
    ∧ check_idempotency lookupBoundaryDB "k" 100 =
        (lookupBoundaryDB, some (ResponseData.repayPayload 1 .NORMAL)) := by
  refine ⟨rfl, by decide, by decide⟩

/-- C7 (amended): `check_idempotency` returns the cached response exactly
when an entry for the key exists and `now ≤ expires_at`; when the entry
exists but `expires_at < now`, the entry is deleted as a side effect and
the lookup reports a miss; when no entry exists the store is untouched
and the lookup reports a miss. -/
theorem C7_lookup_amended (db : DB) (key : String) (now : Int) :
    (db.idem_keys.find? (fun e => e.key == key) = none →
      check_idempotency db key now = (db, none))
    ∧ (∀ ent, db.idem_keys.find? (fun e => e.key == key) = some ent →
        (now ≤ ent.expires_at →
          check_idempotency db key now = (db, some ent.response_data))
        ∧ (ent.expires_at < now →
          check_idempotency db key now =
            ({ db with idem_keys :=
                db.idem_keys.filter (fun x => !(x.key == key)) }, none))) := by
  constructor
  · intro hnone
    unfold check_idempotency
    rw [hnone]
  · intro ent hent
    constructor
    · intro hvalid
      unfold check_idempotency
      rw [hent]
      dsimp only
      rw [if_neg (not_lt.mpr hvalid)]
    · intro hexp
      unfold check_idempotency
      rw [hent]
      dsimp only
      rw [if_pos hexp]

/-- Witness for C7 (amended): a concrete unexpired entry is returned. -/
theorem C7_lookup_amended_witness :
    check_idempotency lookupBoundaryDB "k" 50 =
      (lookupBoundaryDB, some (ResponseData.repayPayload 1 .NORMAL)) :=
  ((C7_lookup_amended lookupBoundaryDB "k" 50).2
    ⟨"k", ResponseData.repayPayload 1 .NORMAL, 100⟩ rfl).1 (by decide)


/-! ## C9: processed_at on terminal refund transitions -/

/-- A store with one user and one `PENDING` refund for transaction "T". -/
def C9db : DB :=
  ⟨[⟨"u", .NORMAL⟩], [], [], [⟨3, "u", "T", 7550, .PENDING, "", none⟩], []⟩

/-- C9 (counterexample): the synchronous webhook fallback in
`RefundWebhookView.post` moves the pending refund for transaction "T" to
the terminal `APPROVED` state but leaves `processed_at` null, so "the
refund's processed_at field is set (non-null) by that same operation" is
false for webhook processing. -/
theorem C9_processed_at_counterexample :
    C9db.refunds = [⟨3, "u", "T", 7550, .PENDING, "", none⟩]
    ∧ (webhook_sync C9db "T" "approved" none 0 99).1.refunds =
        [⟨3, "u", "T", 7550, .APPROVED, "", none⟩]
    ∧ (webhook_sync C9db "T" "approved" none 0 99).2 =
        some ⟨3, "u", "T", 7550, .APPROVED, "", none⟩ := by
  refine ⟨rfl, by decide, by decide⟩

/-- C9 (amended): explicit approve/reject, cancellation, and the Celery
webhook task all stamp `processed_at` on the terminal transition they
perform, but the synchronous webhook fallback does not: it carries over
the pre-existing `processed_at` (null for the placeholder it creates), so
a refund can reach APPROVED or REJECTED through the fallback with
`processed_at` still null. -/
theorem C9_processed_at_amended (db : DB) (now : Int) :
    (∀ rid approve reason db2 r,
        approve_refund db rid approve reason now = (db2, .ok r) →
        (r.status = .APPROVED ∨ r.status = .REJECTED)
        ∧ r.processed_at = some now)
    ∧ (∀ rid db2 r, cancel_refund db rid now = (db2, .ok r) →
        r.status = .REJECTED ∧ r.processed_at = some now)
    ∧ (∀ rid w mref db2 r,
        process_refund_webhook db rid w mref now = (db2, some r) →
        (w = "approved" ∨ w = "rejected") → r.processed_at = some now)
    ∧ (∀ txn w mref amount newId db2 r,
        webhook_sync db txn w mref amount newId = (db2, some r) →
        r.processed_at =
          (match db.refunds.find? (fun x => x.transaction_id == txn) with
           | some x => x.processed_at
           | none => none)) := by
  refine ⟨?_, ?_, ?_, ?_⟩
  · intro rid approve reason db2 r h
    unfold approve_refund at h
    cases hf : db.refunds.find? (fun x => x.id == rid) with
    | none => rw [hf] at h; simp at h
    | some refund =>
        rw [hf] at h
        dsimp only at h
        split at h
        · simp at h
        · rw [Prod.mk.injEq] at h
          obtain ⟨-, h2⟩ := h
          rw [RefundActionResult.ok.injEq] at h2
          subst h2
          cases approve <;> simp
  · intro rid db2 r h
    unfold cancel_refund at h
    cases hf : db.refunds.find? (fun x => x.id == rid) with
    | none => rw [hf] at h; simp at h
    | some refund =>
        rw [hf] at h
        dsimp only at h
        split at h
        · simp at h
        · rw [Prod.mk.injEq] at h
          obtain ⟨-, h2⟩ := h
          rw [RefundActionResult.ok.injEq] at h2
          subst h2
          exact ⟨rfl, rfl⟩
  · intro rid w mref db2 r h hw
    unfold process_refund_webhook at h
    cases hf : db.refunds.find? (fun x => x.id == rid) with
    | none => rw [hf] at h; simp at h
    | some refund =>
        rw [hf] at h
        dsimp only at h
        rw [Prod.mk.injEq] at h
        obtain ⟨-, h2⟩ := h
        rw [Option.some.injEq] at h2
        subst h2
        rcases hw with hw | hw <;> subst hw <;> simp
  · intro txn w mref amount newId db2 r h
    unfold webhook_sync at h
    cases hu : db.users with
    | nil => rw [hu] at h; simp at h
    | cons firstUser rest =>
        rw [hu] at h
        dsimp only at h
        cases hf : db.refunds.find? (fun x => x.transaction_id == txn) with
        | none =>
            rw [hf] at h
            dsimp only at h
            rw [Prod.mk.injEq] at h
            obtain ⟨-, h2⟩ := h
            rw [Option.some.injEq] at h2
            subst h2
            repeat' split
            all_goals simp_all
        | some r0 =>
            rw [hf] at h
            dsimp only at h
            rw [Prod.mk.injEq] at h
            obtain ⟨-, h2⟩ := h
            rw [Option.some.injEq] at h2
            subst h2
            repeat' split
            all_goals simp_all

/-- Witness for C9 (amended): approving the concrete pending refund
stamps `processed_at`. -/
theorem C9_processed_at_amended_witness :
    ((Refund.mk 3 "u" "T" 7550 .APPROVED "" (some 7)).status = .APPROVED
      ∨ (Refund.mk 3 "u" "T" 7550 .APPROVED "" (some 7)).status = .REJECTED)
    ∧ (Refund.mk 3 "u" "T" 7550 .APPROVED "" (some 7)).processed_at =
        some 7 :=
  (C9_processed_at_amended C9db 7).1 3 true ""
    (approve_refund C9db 3 true "" 7).1
    (Refund.mk 3 "u" "T" 7550 .APPROVED "" (some 7))
    (by decide)


/-- Saving an idempotency response never touches the business tables. -/
theorem save_idempotency_response_tables (db : DB) (key : String)
    (rdata : ResponseData) (now : Int) :
    (save_idempotency_response db key rdata now).users = db.users ∧
    (save_idempotency_response db key rdata now).plans = db.plans ∧
    (save_idempotency_response db key rdata now).installments
      = db.installments ∧
    (save_idempotency_response db key rdata now).refunds = db.refunds := by
  unfold save_idempotency_response
  split <;> exact ⟨rfl, rfl, rfl, rfl⟩


/-- Inversion of the success path of `create_plan_core`: a `created`
outcome means the serializer accepted the request against `db1`, and the
plan and its installment schedule were appended to `db1`. -/
theorem create_plan_core_created {db0 db1 : DB} {req : CreatePlanRequest}
    {today now : Int} {planId instBase : Nat} {db' : DB} {r : ResponseData}
    (h : create_plan_core db0 db1 req today now planId instBase
          = (db', .created r)) :
    ∃ user,
      db1.users.find? (fun u => u.user_id == req.user_id) = some user ∧
      planSerializerOk db1.users req = true ∧
      r = ResponseData.planPayload
            ⟨planId, user.user_id, req.total_amount, .ACTIVE⟩
            (planInstallments req today planId instBase) user ∧
      db'.users = db1.users ∧
      db'.plans = db1.plans ++
        [⟨planId, user.user_id, req.total_amount, .ACTIVE⟩] ∧
      db'.installments = db1.installments ++
        planInstallments req today planId instBase ∧
      db'.refunds = db1.refunds := by
  unfold create_plan_core at h
  split at h
  · simp at h
  · next hser =>
      cases hf : db1.users.find? (fun u => u.user_id == req.user_id) with
      | none => rw [hf] at h; simp at h
      | some user =>
          rw [hf] at h
          dsimp only at h
          split at h
          · simp at h
          · refine ⟨user, rfl, not_not.mp hser, ?_⟩
            cases hk : req.idempotency_key with
            | none =>
                rw [hk] at h
                rw [Prod.mk.injEq] at h
                obtain ⟨hdb, hr⟩ := h
                rw [PlanCreateResult.created.injEq] at hr
                subst hdb
                exact ⟨hr.symm, rfl, rfl, rfl, rfl⟩
            | some k =>
                rw [hk] at h
                rw [Prod.mk.injEq] at h
                obtain ⟨hdb, hr⟩ := h
                rw [PlanCreateResult.created.injEq] at hr
                subst hdb
                obtain ⟨su, sp, si, sr⟩ := save_idempotency_response_tables
                  { db1 with
                    plans := db1.plans ++
                      [⟨planId, user.user_id, req.total_amount, .ACTIVE⟩],
                    installments := db1.installments ++
                      planInstallments req today planId instBase }
                  k (ResponseData.planPayload
                    ⟨planId, user.user_id, req.total_amount, .ACTIVE⟩
                    (planInstallments req today planId instBase) user) now
                exact ⟨hr.symm, su, sp, si, sr⟩

/-- Inversion of the success path of `create_plan`: as
`create_plan_core_created`, relative to the entry state. -/
theorem create_plan_created_spec {db : DB} {req : CreatePlanRequest}
    {today now : Int} {planId instBase : Nat} {db' : DB} {r : ResponseData}
    (h : create_plan db req today now planId instBase
          = (db', .created r)) :
    ∃ user,
      db.users.find? (fun u => u.user_id == req.user_id) = some user ∧
      planSerializerOk db.users req = true ∧
      r = ResponseData.planPayload
            ⟨planId, user.user_id, req.total_amount, .ACTIVE⟩
            (planInstallments req today planId instBase) user ∧
      db'.users = db.users ∧
      db'.plans = db.plans ++
        [⟨planId, user.user_id, req.total_amount, .ACTIVE⟩] ∧
      db'.installments = db.installments ++
        planInstallments req today planId instBase ∧
      db'.refunds = db.refunds := by
  unfold create_plan at h
  cases hk : req.idempotency_key with
  | none =>
      rw [hk] at h
      exact create_plan_core_created h
  | some k =>
      rw [hk] at h
      dsimp only at h
      rcases hcc : check_idempotency db k now with ⟨dbc, cres⟩
      rw [hcc] at h
      obtain ⟨cu, cp, ci, cr⟩ := check_idempotency_fst_tables db k now
      rw [hcc] at cu cp ci cr
      dsimp only at cu cp ci cr
      cases cres with
      | some r0 => simp at h
      | none =>
          obtain ⟨user, hfind, hser, hr, hu, hp, hi, hrr⟩ :=
            create_plan_core_created h
          rw [cu] at hfind hser hu
          rw [cp] at hp
          rw [ci] at hi
          rw [cr] at hrr
          exact ⟨user, hfind, hser, hr, hu, hp, hi, hrr⟩


/-! ## C2: installment sum versus plan total -/

/-- Banker's rounding of `p / q` multiplied back by `q` differs from `p`
by at most `q / 2`. -/
theorem roundHalfEvenDiv_mul_sub_le (p q : Int) (hq : 0 < q) :
    2 * |q * roundHalfEvenDiv p q - p| ≤ q := by
  have h0 : q * (p / q) + p % q = p := Int.ediv_add_emod p q
  have hr0 : 0 ≤ p % q := Int.emod_nonneg p (ne_of_gt hq)
  have hrq : p % q < q := Int.emod_lt_of_pos p hq
  unfold roundHalfEvenDiv
  dsimp only
  split
  · next hlt =>
      rw [show q * (p / q) - p = -(p % q) by omega, abs_neg,
        abs_of_nonneg hr0]
      omega
  · split
    · next hgt =>
        rw [show q * (p / q + 1) - p = q - p % q by ring_nf; omega,
          abs_of_nonneg (by omega)]
        omega
    · split
      · next hlt hgt _ =>
          rw [show q * (p / q) - p = -(p % q) by omega, abs_neg,
            abs_of_nonneg hr0]
          omega
      · next hlt hgt _ =>
          rw [show q * (p / q + 1) - p = q - p % q by ring_nf; omega,
            abs_of_nonneg (by omega)]
          omega

/-- Summing a function that is constant on a list. -/
theorem sum_map_eq_length_mul {α : Type} {f : α → Int} {c : Int}
    (l : List α) (hf : ∀ x ∈ l, f x = c) :
    (l.map f).sum = l.length * c := by
  induction l with
  | nil => simp
  | cons a t ih =>
      rw [List.map_cons, List.sum_cons, hf a (List.mem_cons_self a t),
        ih (fun x hx => hf x (List.mem_cons_of_mem a hx)), List.length_cons]
      push_cast
      ring

/-- A store with a single `NORMAL` user "u" and nothing else. -/
def oneUserDB : DB := ⟨[⟨"u", .NORMAL⟩], [], [], [], []⟩

/-- C2 (counterexample): creating a plan for 1000.00 (100000 cents) in 3
installments succeeds, but the installments sum to 999.99 (99999 cents),
not 1000.00: the source divides `total_amount / installment_count` with
no remainder distribution, so the sum of `amount_due` differs from
`total_amount` for non-divisible combinations. -/
theorem C2_installment_sum_counterexample :
    ((create_plan oneUserDB ⟨"u", 100000, 3, none⟩ 0 0 1 10).2 =
      PlanCreateResult.created (ResponseData.planPayload
        ⟨1, "u", 100000, .ACTIVE⟩
        (planInstallments ⟨"u", 100000, 3, none⟩ 0 1 10) ⟨"u", .NORMAL⟩))
    ∧ (((create_plan oneUserDB ⟨"u", 100000, 3, none⟩ 0 0 1 10).1.installments.map
        (fun i => i.amount_due)).sum = 99999)
    ∧ (99999 : Int) ≠ 100000 := by
  refine ⟨by decide, by decide, by decide⟩

/-- C2 (amended): for every successfully created plan, every installment
carries `total_amount / installment_count` rounded to the cent (banker's
rounding), so the installments of the new plan sum to
`installment_count * roundHalfEvenDiv total_amount installment_count`;
that sum deviates from `total_amount` by at most `installment_count / 2`
cents and in general (e.g. 1000.00 over 3 installments) is not equal to
`total_amount`. -/
theorem C2_installment_sum_amended (db : DB) (req : CreatePlanRequest)
    (today now : Int) (planId instBase : Nat) (db' : DB) (r : ResponseData)
    (h : create_plan db req today now planId instBase = (db', .created r))
    (hfresh : ∀ i ∈ db.installments, i.plan_id ≠ planId) :
    ((db'.installments.filter (fun i => i.plan_id == planId)).map
        (fun i => i.amount_due)).sum
      = (req.installment_count : Int) *
          roundHalfEvenDiv req.total_amount req.installment_count
    ∧ 2 * |(req.installment_count : Int) *
            roundHalfEvenDiv req.total_amount req.installment_count
            - req.total_amount| ≤ (req.installment_count : Int) := by
  obtain ⟨user, hfind, hser, hr, hu, hp, hi, hrr⟩ := create_plan_created_spec h
  have hcount : 1 ≤ req.installment_count := by
    unfold planSerializerOk at hser
    rcases hmatch : db.users.find? (fun u => u.user_id == req.user_id) with
      _ | u0 <;> rw [hmatch] at hser <;>
      simp only [Bool.and_eq_true, decide_eq_true_eq] at hser
    · exact absurd hser (by simp)
    · exact hser.1.1.2
  constructor
  · rw [hi, List.filter_append]
    have hold : db.installments.filter (fun i => i.plan_id == planId) = [] := by
      rw [List.filter_eq_nil_iff]
      intro a ha
      simpa using hfresh a ha
    have hnew : (planInstallments req today planId instBase).filter
        (fun i => i.plan_id == planId) =
        planInstallments req today planId instBase := by
      rw [List.filter_eq_self]
      intro a ha
      unfold planInstallments at ha
      obtain ⟨j, -, hj⟩ := List.mem_map.mp ha
      rw [← hj]
      simp
    rw [hold, hnew, List.nil_append]
    rw [sum_map_eq_length_mul (planInstallments req today planId instBase)
      (c := roundHalfEvenDiv req.total_amount req.installment_count) ?_]
    · unfold planInstallments
      rw [List.length_map, List.length_range]
    · intro x hx
      unfold planInstallments at hx
      obtain ⟨j, -, hj⟩ := List.mem_map.mp hx
      rw [← hj]
  · exact roundHalfEvenDiv_mul_sub_le req.total_amount req.installment_count
      (by exact_mod_cast hcount)

/-- Witness for C2 (amended), at the concrete 1000.00-over-3 plan. -/
theorem C2_installment_sum_amended_witness :
    (((create_plan oneUserDB ⟨"u", 100000, 3, none⟩ 0 0 1 10).1.installments.filter
        (fun i => i.plan_id == 1)).map (fun i => i.amount_due)).sum
      = ((3 : Nat) : Int) * roundHalfEvenDiv 100000 3
    ∧ 2 * |((3 : Nat) : Int) * roundHalfEvenDiv 100000 3 - 100000|
        ≤ ((3 : Nat) : Int) :=
  C2_installment_sum_amended oneUserDB ⟨"u", 100000, 3, none⟩ 0 0 1 10
    (create_plan oneUserDB ⟨"u", 100000, 3, none⟩ 0 0 1 10).1
    (ResponseData.planPayload ⟨1, "u", 100000, .ACTIVE⟩
      (planInstallments ⟨"u", 100000, 3, none⟩ 0 1 10) ⟨"u", .NORMAL⟩)
    (by decide) (by decide)


/-! ## C8: plan-creation failure taxonomy -/

/-- Unpacking a passing `CreateBNPLPlanSerializer` validation. -/
theorem planSerializerOk_user {users : List User} {req : CreatePlanRequest}
    (h : planSerializerOk users req = true) :
    1 ≤ req.total_amount ∧ 1 ≤ req.installment_count ∧
    req.installment_count ≤ 12 ∧
    ∃ u, users.find? (fun v => v.user_id == req.user_id) = some u ∧
      u.status ≠ .DEBT_USER := by
  unfold planSerializerOk at h
  cases hf : users.find? (fun v => v.user_id == req.user_id) with
  | none =>
      rw [hf] at h
      simp at h
  | some u =>
      rw [hf] at h
      simp only [Bool.and_eq_true, decide_eq_true_eq, bne_iff_ne, ne_eq] at h
      exact ⟨h.1.1.1.1, h.1.1.2, h.1.2, u, rfl, h.2⟩

/-- The 403 (`forbidden`) and 404 (`notFound`) branches of the view body
are unreachable: the serializer has already rejected a missing or
`DEBT_USER` user. -/
theorem create_plan_core_taxonomy {db0 db1 : DB} {req : CreatePlanRequest}
    {today now : Int} {planId instBase : Nat} {db' : DB}
    {res : PlanCreateResult}
    (h : create_plan_core db0 db1 req today now planId instBase
          = (db', res)) :
    res ≠ .forbidden ∧ res ≠ .notFound := by
  unfold create_plan_core at h
  split at h
  · rw [Prod.mk.injEq] at h
    rw [← h.2]
    exact ⟨by simp, by simp⟩
  · next hser =>
      obtain ⟨-, -, -, u, hfind, hdebt⟩ := planSerializerOk_user
        (not_not.mp hser)
      rw [hfind] at h
      dsimp only at h
      split at h
      · next heq => exact absurd (eq_of_beq heq) hdebt
      · rw [Prod.mk.injEq] at h
        rw [← h.2]
        exact ⟨by simp, by simp⟩

/-- A store with a single `DEBT_USER` "d" and nothing else. -/
def debtUserDB : DB := ⟨[⟨"d", .DEBT_USER⟩], [], [], [], []⟩

/-- C8 (counterexample): a `DEBT_USER` attempting to create a plan is
rejected with the serializer's `validationError` outcome (HTTP 400), the
same outcome constructor produced for malformed input (here an
`installment_count` of 0), not with the distinguishable `forbidden`
business rejection; the view's 403 branch is dead code. -/
theorem C8_plan_rejection_counterexample :
    debtUserDB.users = [⟨"d", .DEBT_USER⟩]
    ∧ create_plan debtUserDB ⟨"d", 90000, 3, none⟩ 0 0 1 10 =
        (debtUserDB, .validationError)
    ∧ create_plan oneUserDB ⟨"u", 90000, 0, none⟩ 0 0 1 10 =
        (oneUserDB, .validationError) := by
  refine ⟨rfl, by decide, by decide⟩

/-- C8 (amended): `create_plan` does fail for an unknown `user_id` and
for a `DEBT_USER`, and in both cases no plan or installment is created
(the state is returned unchanged); but both failures surface as the
serializer's validation error (HTTP 400), and the `forbidden` (403
`IneligibleUser`) and `notFound` (404 `UserNotFound`) outcomes of the
view body are unreachable for every request. -/
theorem C8_plan_rejection_amended (db : DB) (req : CreatePlanRequest)
    (today now : Int) (planId instBase : Nat) :
    (req.idempotency_key = none →
      db.users.find? (fun v => v.user_id == req.user_id) = none →
      create_plan db req today now planId instBase
        = (db, .validationError))
    ∧ (req.idempotency_key = none →
      ∀ u, db.users.find? (fun v => v.user_id == req.user_id) = some u →
        u.status = .DEBT_USER →
        create_plan db req today now planId instBase
          = (db, .validationError))
    ∧ (∀ db' res, create_plan db req today now planId instBase
          = (db', res) → res ≠ .forbidden ∧ res ≠ .notFound) := by
  refine ⟨?_, ?_, ?_⟩
  · intro hk hfind
    have hser : planSerializerOk db.users req = false := by
      unfold planSerializerOk
      rw [hfind]
      simp
    unfold create_plan create_plan_core
    rw [hk]
    dsimp only
    rw [hser]
    simp
  · intro hk u hfind hdebt
    have hser : planSerializerOk db.users req = false := by
      unfold planSerializerOk
      rw [hfind]
      dsimp only
      rw [hdebt]
      simp
    unfold create_plan create_plan_core
    rw [hk]
    dsimp only
    rw [hser]
    simp
  · intro db' res h
    unfold create_plan at h
    cases hk : req.idempotency_key with
    | none =>
        rw [hk] at h
        exact create_plan_core_taxonomy h
    | some k =>
        rw [hk] at h
        dsimp only at h
        rcases hcc : check_idempotency db k now with ⟨dbc, cres⟩
        rw [hcc] at h
        cases cres with
        | some r0 =>
            rw [Prod.mk.injEq] at h
            rw [← h.2]
            exact ⟨by simp, by simp⟩
        | none => exact create_plan_core_taxonomy h

/-- Witness for C8 (amended): an unknown user is rejected with the
validation outcome and no state change. -/
theorem C8_plan_rejection_amended_witness :
    create_plan debtUserDB ⟨"x", 500, 3, none⟩ 0 0 1 10
      = (debtUserDB, .validationError) :=
  (C8_plan_rejection_amended debtUserDB ⟨"x", 500, 3, none⟩ 0 0 1 10).1
    rfl (by decide)


/-! ## C4: idempotent replay of create_plan -/

/-- On the success path of `create_plan_core`, when the store held no
entry for the request's idempotency key, the cache entry with the
response payload and the 24-hour expiry is appended. -/
theorem create_plan_core_created_keys {db0 db1 : DB}
    {req : CreatePlanRequest} {today now : Int} {planId instBase : Nat}
    {db' : DB} {r : ResponseData} {k : String}
    (hk : req.idempotency_key = some k)
    (hnone : db1.idem_keys.find? (fun e => e.key == k) = none)
    (h : create_plan_core db0 db1 req today now planId instBase
          = (db', .created r)) :
    db'.idem_keys = db1.idem_keys ++ [⟨k, r, now + idemTTL⟩] := by
  unfold create_plan_core at h
  split at h
  · simp at h
  · next hser =>
      obtain ⟨-, -, -, u, hfind, hdebt⟩ := planSerializerOk_user
        (not_not.mp hser)
      rw [hfind] at h
      dsimp only at h
      split at h
      · simp at h
      · rw [hk] at h
        rw [Prod.mk.injEq] at h
        obtain ⟨hdb, hr⟩ := h
        rw [PlanCreateResult.created.injEq] at hr
        subst hdb
        unfold save_idempotency_response
        have hany : db1.idem_keys.any (fun e => e.key == k) = false := by
          rw [List.any_eq_false]
          intro x hx
          exact List.find?_eq_none.mp hnone x hx
        dsimp only
        rw [hany]
        rw [hr]
        simp

/-- After a successful `create_plan` tagged with key `k`, the store maps
`k` to the response payload with expiry `now + idemTTL`. -/
theorem create_plan_created_cache_entry {db : DB} {req : CreatePlanRequest}
    {today now : Int} {planId instBase : Nat} {db1 : DB}
    {r : ResponseData} {k : String}
    (hk : req.idempotency_key = some k)
    (h : create_plan db req today now planId instBase
          = (db1, .created r)) :
    db1.idem_keys.find? (fun e => e.key == k)
      = some ⟨k, r, now + idemTTL⟩ := by
  unfold create_plan at h
  rw [hk] at h
  dsimp only at h
  rcases hcc : check_idempotency db k now with ⟨dbc, cres⟩
  rw [hcc] at h
  cases cres with
  | some r0 => simp at h
  | none =>
      have hnone := check_idempotency_miss_no_entry hcc
      have hkeys := create_plan_core_created_keys hk hnone h
      rw [hkeys, List.find?_append, hnone]
      simp

/-- C4: after a first successful `create_plan` with idempotency key `k`,
a second call with the same key within the 24-hour TTL returns the
first response payload unchanged (the 200 `cached` outcome) and leaves
the store untouched — in particular the second call executes no
plan-creation mutation, and exactly one plan was created in total. -/
theorem C4_create_plan_idempotent_replay (db db1 : DB)
    (req req2 : CreatePlanRequest) (k : String)
    (today1 now1 today2 now2 : Int)
    (planId instBase planId2 instBase2 : Nat) (r : ResponseData)
    (hk : req.idempotency_key = some k)
    (hk2 : req2.idempotency_key = some k)
    (h1 : create_plan db req today1 now1 planId instBase
          = (db1, .created r))
    (ht : now2 ≤ now1 + idemTTL) :
    create_plan db1 req2 today2 now2 planId2 instBase2 = (db1, .cached r)
    ∧ db1.plans.length = db.plans.length + 1 := by
  have hentry := create_plan_created_cache_entry hk h1
  constructor
  · unfold create_plan
    rw [hk2]
    dsimp only
    have hlook : check_idempotency db1 k now2 = (db1, some r) := by
      unfold check_idempotency
      rw [hentry]
      dsimp only
      rw [if_neg (not_lt.mpr ht)]
    rw [hlook]
  · obtain ⟨u1, ha, hb, hc, hd, hp, he, hf⟩ := create_plan_created_spec h1
    simp [hp]

/-- The state after the concrete first `create_plan` call of the C4
witness. -/
def replayDB1 : DB :=
  (create_plan oneUserDB ⟨"u", 90000, 3, some "key"⟩ 0 0 1 10).1

/-- The response payload of that first call. -/
def replayResp : ResponseData :=
  ResponseData.planPayload ⟨1, "u", 90000, .ACTIVE⟩
    (planInstallments ⟨"u", 90000, 3, some "key"⟩ 0 1 10) ⟨"u", .NORMAL⟩

/-- Witness for C4 at a concrete run: the replay five hours later is the
cached 200 with the original payload, and exactly one plan exists. -/
theorem C4_create_plan_idempotent_replay_witness :
    create_plan replayDB1 ⟨"u", 120000, 6, some "key"⟩ 5 5 2 20
      = (replayDB1, .cached replayResp)
    ∧ replayDB1.plans.length = oneUserDB.plans.length + 1 :=
  C4_create_plan_idempotent_replay oneUserDB replayDB1
    ⟨"u", 90000, 3, some "key"⟩ ⟨"u", 120000, 6, some "key"⟩ "key"
    0 0 5 5 1 10 2 20 replayResp rfl rfl (by decide) (by decide)


/-! ## C5: create_refund idempotency on transaction_id -/

/-- Unpacking a passing `CreateRefundSerializer` validation: the
transaction id is non-blank and not used by any existing refund. -/
theorem refundSerializerOk_spec {refunds : List Refund}
    {users : List User} {uid txn : String} {amount : Int}
    (h : refundSerializerOk refunds users uid txn amount = true) :
    txn ≠ "" ∧ ∀ x ∈ refunds, x.transaction_id ≠ txn := by
  unfold refundSerializerOk at h
  simp only [Bool.and_eq_true, bne_iff_ne, ne_eq, Bool.not_eq_true',
    List.any_eq_false, beq_iff_eq, decide_eq_true_eq] at h
  exact ⟨h.1.1.1.1.2, h.1.1.1.2⟩

/-- Inversion of the success path of `create_refund`: a `created` outcome
means no refund used the transaction id yet, and one `PENDING` refund row
carrying it was appended. -/
theorem create_refund_created_spec {db : DB} {uid txn : String}
    {amount : Int} {reason : String} {newId : Nat} {db' : DB} {r : Refund}
    (h : create_refund db uid txn amount reason newId
          = (db', .created r)) :
    txn ≠ "" ∧ (∀ x ∈ db.refunds, x.transaction_id ≠ txn) ∧
    r.transaction_id = txn ∧ r.id = newId ∧ r.status = .PENDING ∧
    db'.refunds = db.refunds ++ [r] ∧ db'.users = db.users := by
  unfold create_refund at h
  split at h
  · cases hf : db.refunds.find? (fun x => x.transaction_id == txn) with
    | some r0 => rw [hf] at h; simp at h
    | none =>
        rw [hf] at h
        dsimp only at h
        split at h
        · simp at h
        · next hser =>
            obtain ⟨htxn, hfree⟩ := refundSerializerOk_spec (not_not.mp hser)
            cases hfu : db.users.find? (fun u => u.user_id == uid) with
            | none => rw [hfu] at h; simp at h
            | some user =>
                rw [hfu] at h
                dsimp only at h
                rw [Prod.mk.injEq] at h
                obtain ⟨hdb, hr⟩ := h
                rw [RefundCreateResult.created.injEq] at hr
                subst hdb
                rw [← hr]
                exact ⟨htxn, hfree, rfl, rfl, rfl, rfl, rfl⟩
  · next hneq =>
      split at h
      · simp at h
      · next hser =>
          obtain ⟨htxn, -⟩ := refundSerializerOk_spec (not_not.mp hser)
          exact absurd (by simpa [bne_iff_ne] using htxn) hneq

/-- C4-style replay for refunds — C5: after a first successful
`create_refund` for transaction id `txn`, any second call with the same
`txn` returns the very same refund row as a 200 success (`existing r`,
same refund id), leaves the store unchanged, and exactly one refund row
for `txn` exists. -/
theorem C5_create_refund_idempotent_replay (db db1 : DB)
    (uid txn reason : String) (amount : Int) (newId : Nat) (r : Refund)
    (h1 : create_refund db uid txn amount reason newId = (db1, .created r))
    (uid2 reason2 : String) (amount2 : Int) (newId2 : Nat) :
    create_refund db1 uid2 txn amount2 reason2 newId2
      = (db1, .existing r)
    ∧ (db1.refunds.filter (fun x => x.transaction_id == txn)).length = 1
    ∧ r.transaction_id = txn := by
  obtain ⟨htxn, hfree, hrtxn, -, -, hrefunds, -⟩ :=
    create_refund_created_spec h1
  have hprefix : db.refunds.find? (fun x => x.transaction_id == txn)
      = none := by
    rw [List.find?_eq_none]
    intro x hx
    simpa using hfree x hx
  have hfind1 : db1.refunds.find? (fun x => x.transaction_id == txn)
      = some r := by
    rw [hrefunds, List.find?_append, hprefix]
    simp [hrtxn]
  have htxn' : (txn != "") = true := by simpa [bne_iff_ne] using htxn
  refine ⟨?_, ?_, hrtxn⟩
  · unfold create_refund
    rw [if_pos htxn', hfind1]
  · rw [hrefunds, List.filter_append]
    have hold : db.refunds.filter (fun x => x.transaction_id == txn)
        = [] := by
      rw [List.filter_eq_nil_iff]
      intro x hx
      simpa using hfree x hx
    rw [hold]
    simp [hrtxn]

/-- The store after the concrete first `create_refund` call of the C5
witness: one user "u" and the `PENDING` refund for "TXN1". -/
def refundDB1 : DB :=
  (create_refund oneUserDB "u" "TXN1" 7550 "defect" 50).1

/-- Witness for C5 at a concrete run: the duplicate create returns the
existing refund row 50 and exactly one row for "TXN1" exists. -/
theorem C5_create_refund_idempotent_replay_witness :
    create_refund refundDB1 "other" "TXN1" 100 "" 51
      = (refundDB1, .existing ⟨50, "u", "TXN1", 7550, .PENDING, "defect", none⟩)
    ∧ (refundDB1.refunds.filter
        (fun x => x.transaction_id == "TXN1")).length = 1
    ∧ (Refund.mk 50 "u" "TXN1" 7550 .PENDING "defect" none).transaction_id
        = "TXN1" :=
  C5_create_refund_idempotent_replay oneUserDB refundDB1 "u" "TXN1"
    "defect" 7550 50 ⟨50, "u", "TXN1", 7550, .PENDING, "defect", none⟩
    (by decide) "other" "" 100 51


/-! ## C6: the overdue sweep -/

/-- C6: `sweep_overdue` transitions to `OVERDUE` exactly the installments
that are `UPCOMING` with `due_date` strictly before today — every such
installment is marked and every other installment is returned unchanged —
and it is idempotent: a second run on the resulting state (with no newly
due installments in between) returns the state unchanged and reports zero
updated installments and zero affected users. -/
theorem C6_sweep_exact_and_idempotent (db : DB) (today : Int) :
    (sweep_overdue db today).1.installments =
      db.installments.map (fun i =>
        if sweepDue today i then { i with status := .OVERDUE } else i)
    ∧ sweep_overdue (sweep_overdue db today).1 today
        = ((sweep_overdue db today).1, 0, 0) := by
  have hmap : (sweep_overdue db today).1.installments =
      db.installments.map (fun i =>
        if sweepDue today i then { i with status := .OVERDUE } else i) := by
    unfold sweep_overdue
    dsimp only
    split
    · next hemp =>
        have hnil : ∀ x ∈ db.installments, ¬ (sweepDue today x = true) :=
          List.filter_eq_nil_iff.mp (List.isEmpty_iff.mp hemp)
        have hid : db.installments.map (fun i =>
            if sweepDue today i then { i with status := .OVERDUE } else i)
            = db.installments.map (fun a => a) :=
          List.map_congr_left (fun a ha => if_neg (hnil a ha))
        rw [hid, List.map_id']
    · rfl
  refine ⟨hmap, ?_⟩
  have hnone : (sweep_overdue db today).1.installments.filter
      (sweepDue today) = [] := by
    rw [hmap, List.filter_eq_nil_iff]
    intro a ha
    obtain ⟨y, hy, rfl⟩ := List.mem_map.mp ha
    by_cases hdue : sweepDue today y = true
    · rw [if_pos hdue]
      unfold sweepDue
      simp
    · rw [if_neg hdue]
      exact hdue
  generalize hS : (sweep_overdue db today).1 = S at hnone ⊢
  unfold sweep_overdue
  dsimp only
  rw [hnone]
  rfl


/-! ## C10: duplicate installment ids in a repayment request -/

/-- A list with a repeated element strictly shrinks under `dedup`. -/
theorem dedup_length_lt_of_not_nodup {α : Type} [DecidableEq α]
    {l : List α} (h : ¬ l.Nodup) : l.dedup.length < l.length := by
  rcases lt_or_eq_of_le (List.dedup_sublist l).length_le with hlt | heq
  · exact hlt
  · exact absurd (List.dedup_eq_self.mp
      ((List.dedup_sublist l).eq_of_length heq)) h

/-- A duplicate-free list contained in `m` is no longer than `m.dedup`. -/
theorem nodup_subset_length_le {α : Type} [DecidableEq α]
    {l m : List α} (hl : l.Nodup) (hmem : ∀ x ∈ l, x ∈ m) :
    l.length ≤ m.dedup.length := by
  have hsub : l.toFinset ⊆ m.toFinset := fun x hx =>
    List.mem_toFinset.mpr (hmem x (List.mem_toFinset.mp hx))
  calc l.length = l.toFinset.card := (List.toFinset_card_of_nodup hl).symm
    _ ≤ m.toFinset.card := Finset.card_le_card hsub
    _ = m.dedup.length := List.card_toFinset m

/-- With duplicate-free installment ids, the rows matched by
`id__in=ids` are at most the distinct ids requested. -/
theorem filter_contains_length_le (insts : List Installment)
    (ids : List Nat) (hwf : (insts.map (fun i => i.id)).Nodup) :
    (insts.filter (fun i => ids.contains i.id)).length
      ≤ ids.dedup.length := by
  have hnodup : ((insts.filter (fun i => ids.contains i.id)).map
      (fun i => i.id)).Nodup :=
    List.Nodup.sublist
      (List.Sublist.map _ (List.filter_sublist insts)) hwf
  have hmem : ∀ x ∈ (insts.filter (fun i => ids.contains i.id)).map
      (fun i => i.id), x ∈ ids := by
    intro x hx
    obtain ⟨i, hi, rfl⟩ := List.mem_map.mp hx
    simpa using (List.mem_filter.mp hi).2
  have := nodup_subset_length_le hnodup hmem
  simpa [List.length_map] using this

/-- C10: a repayment request whose id list contains the same valid
OVERDUE installment id more than once is rejected by
`RepaymentSerializer` (the distinct matched-row count is compared against
the request list's length) and nothing changes state, even though every
id in the list resolves to an OVERDUE installment owned by the user. -/
theorem C10_duplicate_repay_ids (db : DB) (uid : String) (ids : List Nat)
    (now : Int)
    (hwf : (db.installments.map (fun i => i.id)).Nodup)
    (hdup : ¬ ids.Nodup)
    (hresolve : ∀ n ∈ ids, ∃ i ∈ db.installments,
        i.id = n ∧ i.status = .OVERDUE ∧ ownerOf db.plans i = some uid)
    (huser : (db.users.find? (fun u => u.user_id == uid)).isSome = true) :
    repay db uid ids none now = (db, .validationError) := by
  obtain ⟨user, huser'⟩ := Option.isSome_iff_exists.mp huser
  have hlt : (db.installments.filter
      (fun i => ids.contains i.id)).length < ids.length :=
    lt_of_le_of_lt (filter_contains_length_le db.installments ids hwf)
      (dedup_length_lt_of_not_nodup hdup)
  have hserfail : repaySerializerOk db.installments ids = false := by
    unfold repaySerializerOk
    have hne : ((db.installments.filter
        (fun i => ids.contains i.id)).length == ids.length) = false := by
      rw [beq_eq_false_iff_ne]
      omega
    rw [hne]
    simp
  unfold repay repay_core
  dsimp only
  rw [huser']
  dsimp only
  rw [hserfail]
  simp

/-- The duplicate-repayment scenario: a debt user with one OVERDUE
installment (id 1) on plan 5. -/
def dupRepayDB : DB :=
  ⟨[⟨"u", .DEBT_USER⟩], [⟨5, "u", 90000, .ACTIVE⟩],
   [⟨1, 5, 30000, 0, .OVERDUE, none⟩], [], []⟩

/-- Witness for C10: repaying `[1, 1]` in the concrete store is rejected
with the validation error and the store is unchanged. -/
theorem C10_duplicate_repay_ids_witness :
    repay dupRepayDB "u" [1, 1] none 7 = (dupRepayDB, .validationError) :=
  C10_duplicate_repay_ids dupRepayDB "u" [1, 1] 7 (by decide) (by decide)
    (by decide) (by decide)


/-! ## C3: repay is all-or-nothing -/

/-- A filter misses at least one element when a member fails the
predicate. -/
theorem length_filter_lt_of_mem_not {α : Type} {l : List α} {p : α → Bool}
    {x : α} (hx : x ∈ l) (hp : ¬ p x = true) :
    (l.filter p).length < l.length := by
  rcases lt_or_eq_of_le (List.length_filter_le p l) with h | h
  · exact h
  · have heq : l.filter p = l := (List.filter_sublist l).eq_of_length h
    have hxmem : x ∈ l.filter p := heq.symm ▸ hx
    exact absurd (List.of_mem_filter hxmem) hp

/-- When the distinct matched-row count equals the length of a
duplicate-free id list, every requested id has a matching installment. -/
theorem exists_installment_of_count_eq {insts : List Installment}
    {ids : List Nat}
    (hwf : (insts.map (fun i => i.id)).Nodup) (hids : ids.Nodup)
    (hcount : (insts.filter (fun i => ids.contains i.id)).length
      = ids.length) :
    ∀ n ∈ ids, ∃ i ∈ insts, i.id = n := by
  by_contra hcon
  push_neg at hcon
  obtain ⟨n, hn, hno⟩ := hcon
  have hnodup : ((insts.filter (fun i => ids.contains i.id)).map
      (fun i => i.id)).Nodup :=
    List.Nodup.sublist
      (List.Sublist.map _ (List.filter_sublist insts)) hwf
  have hsub : ((insts.filter (fun i => ids.contains i.id)).map
      (fun i => i.id)).toFinset ⊆ ids.toFinset.erase n := by
    intro x hx
    rw [List.mem_toFinset] at hx
    obtain ⟨i, hi, rfl⟩ := List.mem_map.mp hx
    obtain ⟨hiin, hic⟩ := List.mem_filter.mp hi
    refine Finset.mem_erase.mpr ⟨?_, List.mem_toFinset.mpr (by simpa using hic)⟩
    intro heq
    exact hno i hiin heq
  have hle := Finset.card_le_card hsub
  rw [List.toFinset_card_of_nodup hnodup,
    Finset.card_erase_of_mem (List.mem_toFinset.mpr hn),
    List.toFinset_card_of_nodup hids, List.length_map, hcount] at hle
  have hpos : 1 ≤ ids.length := List.length_pos.mpr
    (List.ne_nil_of_mem hn)
  omega

/-- Conversely, when every requested id resolves to an installment and
both the id list and the installment ids are duplicate-free, the matched
count equals the requested count. -/
theorem filter_contains_length_eq {insts : List Installment}
    {ids : List Nat}
    (hwf : (insts.map (fun i => i.id)).Nodup) (hids : ids.Nodup)
    (hres : ∀ n ∈ ids, ∃ i ∈ insts, i.id = n) :
    (insts.filter (fun i => ids.contains i.id)).length = ids.length := by
  have hnodup : ((insts.filter (fun i => ids.contains i.id)).map
      (fun i => i.id)).Nodup :=
    List.Nodup.sublist
      (List.Sublist.map _ (List.filter_sublist insts)) hwf
  have hset : ((insts.filter (fun i => ids.contains i.id)).map
      (fun i => i.id)).toFinset = ids.toFinset := by
    ext x
    simp only [List.mem_toFinset, List.mem_map]
    constructor
    · rintro ⟨i, hi, rfl⟩
      simpa using (List.mem_filter.mp hi).2
    · intro hx
      obtain ⟨i, hi, hid⟩ := hres x hx
      exact ⟨i, List.mem_filter.mpr ⟨hi, by simp [hid, hx]⟩, hid⟩
  calc (insts.filter (fun i => ids.contains i.id)).length
      = ((insts.filter (fun i => ids.contains i.id)).map
          (fun i => i.id)).length := (List.length_map _ _).symm
    _ = ((insts.filter (fun i => ids.contains i.id)).map
          (fun i => i.id)).toFinset.card :=
        (List.toFinset_card_of_nodup hnodup).symm
    _ = ids.toFinset.card := by rw [hset]
    _ = ids.length := List.toFinset_card_of_nodup hids

/-- The id `n` resolves to an `OVERDUE` installment owned by `uid`. -/
abbrev resolvesOverdueOwned (db : DB) (uid : String) (n : Nat) : Prop :=
  ∃ i ∈ db.installments, i.id = n ∧ i.status = .OVERDUE ∧
    ownerOf db.plans i = some uid

/-- C3 (counterexample): in the concrete store every id in `[1, 1]`
resolves to an OVERDUE installment owned by "u", yet `repay` rejects the
batch (duplicates always fail the count comparison) instead of paying
the named installments, so the claim's "otherwise all named installments
transition OVERDUE to PAID" is false as stated for lists. -/
theorem C3_repay_counterexample :
    (∀ n ∈ [1, 1], resolvesOverdueOwned dupRepayDB "u" n)
    ∧ repay dupRepayDB "u" [1, 1] none 7
        = (dupRepayDB, .validationError) := by
  refine ⟨by decide, by decide⟩


/-- C3 (amended): for a repayment request with a *duplicate-free* id
list (not answered from the idempotency cache), if some id does not
resolve to an OVERDUE installment owned by the user, the call fails (with
the serializer's validation error or the view's 400) and the store is
returned unchanged — no installment in the batch changes state; if the
list is non-empty and every id resolves to an OVERDUE installment owned
by the user, the call succeeds and exactly the named installments
transition OVERDUE to PAID with `paid_at` set, all other installments
unchanged. -/
theorem C3_repay_all_or_nothing_amended (db : DB) (uid : String)
    (ids : List Nat) (now : Int)
    (hids : ids.Nodup)
    (hwf : (db.installments.map (fun i => i.id)).Nodup)
    (huser : (db.users.find? (fun u => u.user_id == uid)).isSome = true) :
    ((¬ ∀ n ∈ ids, resolvesOverdueOwned db uid n) →
      ∃ res, repay db uid ids none now = (db, res) ∧
        (res = RepayResult.validationError ∨ res = RepayResult.badRequest))
    ∧ ((1 ≤ ids.length ∧ ∀ n ∈ ids, resolvesOverdueOwned db uid n) →
      ∃ r, (repay db uid ids none now).2 = RepayResult.ok r ∧
        (repay db uid ids none now).1.installments =
          db.installments.map (fun i =>
            if ids.contains i.id then
              { i with status := .PAID, paid_at := some now }
            else i)) := by
  obtain ⟨user, huser'⟩ := Option.isSome_iff_exists.mp huser
  have hinj := List.inj_on_of_nodup_map hwf
  constructor
  · intro hnot
    by_cases hser : repaySerializerOk db.installments ids = true
    · -- the serializer passed, so the ownership check in the view fails
      have hser' := hser
      unfold repaySerializerOk at hser'
      simp only [Bool.and_eq_true, beq_iff_eq, List.all_eq_true,
        decide_eq_true_eq] at hser'
      obtain ⟨⟨-, hcount⟩, hall⟩ := hser'
      have hres' : ∀ n ∈ ids, ∃ i ∈ db.installments, i.id = n :=
        exists_installment_of_count_eq hwf hids hcount
      push_neg at hnot
      obtain ⟨n, hn, hnores⟩ := hnot
      obtain ⟨i0, hi0, hi0id⟩ := hres' n hn
      have hi0in : i0 ∈ db.installments.filter
          (fun i => ids.contains i.id) :=
        List.mem_filter.mpr ⟨hi0, by simp [hi0id, hn]⟩
      have hi0ov : i0.status = .OVERDUE := hall i0 hi0in
      have hi0notown : ¬ ownerOf db.plans i0 = some uid := by
        intro hown
        exact hnores ⟨i0, hi0, hi0id, hi0ov, hown⟩
      have hmeq : db.installments.filter (repayMatch db.plans uid ids)
          = (db.installments.filter (fun i => ids.contains i.id)).filter
              (fun i => ownerOf db.plans i == some uid &&
                i.status == .OVERDUE) := by
        rw [List.filter_filter]
        apply List.filter_congr
        intro x hx
        unfold repayMatch
        simp [Bool.and_comm, Bool.and_left_comm, Bool.and_assoc]
      have hlt : (db.installments.filter
          (repayMatch db.plans uid ids)).length < ids.length := by
        rw [hmeq, ← hcount]
        refine length_filter_lt_of_mem_not hi0in ?_
        simp only [Bool.and_eq_true, beq_iff_eq]
        intro hcon
        exact hi0notown hcon.1
      refine ⟨.badRequest, ?_, Or.inr rfl⟩
      unfold repay repay_core
      dsimp only
      rw [huser']
      dsimp only
      rw [if_neg (not_not_intro hser)]
      try dsimp only
      rw [if_pos (by simp only [beq_iff_eq]; omega)]
    · refine ⟨.validationError, ?_, Or.inl rfl⟩
      unfold repay repay_core
      dsimp only
      rw [huser']
      dsimp only
      rw [if_pos hser]
  · rintro ⟨hlen, hresolve⟩
    have hres' : ∀ n ∈ ids, ∃ i ∈ db.installments, i.id = n := by
      intro n hn
      obtain ⟨i, hi, hid, -, -⟩ := hresolve n hn
      exact ⟨i, hi, hid⟩
    have hcount := filter_contains_length_eq hwf hids hres'
    have hall : ∀ i ∈ db.installments.filter (fun x => ids.contains x.id),
        i.status = .OVERDUE ∧ ownerOf db.plans i = some uid := by
      intro i hi
      obtain ⟨hiin, hic⟩ := List.mem_filter.mp hi
      have hidmem : i.id ∈ ids := by simpa using hic
      obtain ⟨j, hj, hjid, hjov, hjown⟩ := hresolve i.id hidmem
      have : j = i := hinj hj hiin hjid
      subst this
      exact ⟨hjov, hjown⟩
    have hser : repaySerializerOk db.installments ids = true := by
      unfold repaySerializerOk
      simp only [Bool.and_eq_true, beq_iff_eq, List.all_eq_true,
        decide_eq_true_eq]
      exact ⟨⟨hlen, hcount⟩, fun i hi => by simp [(hall i hi).1]⟩
    have hpoint : ∀ i ∈ db.installments,
        repayMatch db.plans uid ids i = ids.contains i.id := by
      intro i hi
      cases hc : ids.contains i.id with
      | false =>
          unfold repayMatch
          rw [hc]
          simp
      | true =>
          have hidmem : i.id ∈ ids := by simpa using hc
          obtain ⟨j, hj, hjid, hjov, hjown⟩ := hresolve i.id hidmem
          have : j = i := hinj hj hi hjid
          subst this
          unfold repayMatch
          rw [hc]
          simp [hjov, hjown]
    have hmeq : db.installments.filter (repayMatch db.plans uid ids)
        = db.installments.filter (fun i => ids.contains i.id) :=
      List.filter_congr hpoint
    have hbeq : ((db.installments.filter
        (repayMatch db.plans uid ids)).length == ids.length) = true := by
      rw [hmeq]
      exact beq_iff_eq.mpr hcount
    rcases hrep : repay db uid ids none now with ⟨dbX, resX⟩
    have hrep' := hrep
    unfold repay repay_core at hrep'
    dsimp only at hrep'
    rw [huser'] at hrep'
    dsimp only at hrep'
    rw [if_neg (not_not_intro hser)] at hrep'
    try dsimp only at hrep'
    rw [if_neg (not_not_intro hbeq)] at hrep'
    try dsimp only at hrep'
    rw [Prod.mk.injEq] at hrep'
    obtain ⟨hdbX, hresX⟩ := hrep'
    refine ⟨_, hresX.symm, ?_⟩
    rw [← hdbX]
    split <;>
      exact List.map_congr_left (fun i hi => by simp only [hpoint i hi])


/-- Witness for C3 (amended): repaying the single OVERDUE installment in
the concrete store succeeds and marks exactly it PAID. -/
theorem C3_repay_all_or_nothing_amended_witness :
    ∃ r, (repay dupRepayDB "u" [1] none 7).2 = RepayResult.ok r ∧
      (repay dupRepayDB "u" [1] none 7).1.installments =
        dupRepayDB.installments.map (fun i =>
          if [1].contains i.id then
            { i with status := InstallmentStatus.PAID, paid_at := some 7 }
          else i) :=
  (C3_repay_all_or_nothing_amended dupRepayDB "u" [1] 7 (by decide)
    (by decide) (by decide)).2 ⟨by decide, by decide⟩


/-! ## C1: the derived debt-status invariant -/

/-- `hasOverdueL` as an existential. -/
theorem hasOverdueL_iff (plans : List BNPLPlan) (insts : List Installment)
    (uid : String) :
    hasOverdueL plans insts uid = true ↔
      ∃ i ∈ insts, ownerOf plans i = some uid ∧
        i.status = .OVERDUE := by
  unfold hasOverdueL
  rw [List.any_eq_true]
  simp only [Bool.and_eq_true, beq_iff_eq]

/-- Overdue-existence after the sweep's marking pass: an overdue
installment of `uid` exists afterwards iff one existed before or a
`uid`-owned installment was due for marking. -/
theorem hasOverdueL_after_mark (plans : List BNPLPlan)
    (insts : List Installment) (today : Int) (uid : String) :
    hasOverdueL plans (insts.map (fun i =>
        if sweepDue today i then { i with status := .OVERDUE } else i))
      uid = true ↔
      ∃ i ∈ insts, ownerOf plans i = some uid ∧
        (i.status = .OVERDUE ∨ sweepDue today i = true) := by
  unfold hasOverdueL
  rw [List.any_map, List.any_eq_true]
  constructor
  · rintro ⟨i, hi, hcond⟩
    by_cases hdue : sweepDue today i = true
    · refine ⟨i, hi, ?_, Or.inr hdue⟩
      simp only [Function.comp_apply, if_pos hdue, Bool.and_eq_true,
        beq_iff_eq] at hcond
      exact hcond.1
    · refine ⟨i, hi, ?_, Or.inl ?_⟩ <;>
        · simp only [Function.comp_apply, if_neg hdue, Bool.and_eq_true,
            beq_iff_eq] at hcond
          first
            | exact hcond.1
            | exact hcond.2
  · rintro ⟨i, hi, hown, hcase | hcase⟩
    · have hdue : ¬ sweepDue today i = true := by
        unfold sweepDue
        rw [hcase]
        simp
      exact ⟨i, hi, by
        simp only [Function.comp_apply, if_neg hdue, Bool.and_eq_true,
          beq_iff_eq]
        exact ⟨hown, hcase⟩⟩
    · exact ⟨i, hi, by
        simp only [Function.comp_apply, if_pos hcase, Bool.and_eq_true,
          beq_iff_eq]
        exact ⟨hown, trivial⟩⟩

/-- Membership in the sweep's affected-user set. -/
theorem mem_affected_iff (plans : List BNPLPlan)
    (insts : List Installment) (today : Int) (uid : String) :
    (((insts.filter (sweepDue today)).filterMap
        (ownerOf plans)).dedup.contains uid = true) ↔
      ∃ i ∈ insts, sweepDue today i = true ∧
        ownerOf plans i = some uid := by
  constructor
  · intro h
    have hmem : uid ∈ (insts.filter (sweepDue today)).filterMap
        (ownerOf plans) := List.mem_dedup.mp (by simpa using h)
    obtain ⟨i, hi, hown⟩ := List.mem_filterMap.mp hmem
    obtain ⟨hiin, hdue⟩ := List.mem_filter.mp hi
    exact ⟨i, hiin, hdue, hown⟩
  · rintro ⟨i, hi, hdue, hown⟩
    have : uid ∈ (insts.filter (sweepDue today)).filterMap
        (ownerOf plans) :=
      List.mem_filterMap.mpr ⟨i, List.mem_filter.mpr ⟨hi, hdue⟩, hown⟩
    simpa using List.mem_dedup.mpr this

/-- Under duplicate-free `user_id`s, a member sharing the looked-up id is
the looked-up user. -/
theorem user_eq_of_find? {users : List User}
    (hnod : (users.map (fun u => u.user_id)).Nodup) {uid : String}
    {user u : User}
    (hf : users.find? (fun v => v.user_id == uid) = some user)
    (hu : u ∈ users) (hid : u.user_id = uid) : u = user := by
  have hmem := List.mem_of_find?_eq_some hf
  have hfid : user.user_id = uid := by simpa using List.find?_some hf
  exact List.inj_on_of_nodup_map hnod hu hmem (by rw [hid, hfid])

/-- Appending a plan with a fresh id does not change the owner of an
existing installment. -/
theorem ownerOf_append_fresh {plans : List BNPLPlan} {p : BNPLPlan}
    {i : Installment} (hne : i.plan_id ≠ p.id) :
    ownerOf (plans ++ [p]) i = ownerOf plans i := by
  unfold ownerOf
  rw [List.find?_append]
  cases h : plans.find? (fun q => q.id == i.plan_id) with
  | some q => rfl
  | none =>
      have : ([p].find? (fun q => q.id == i.plan_id)) = none := by
        rw [List.find?_eq_none]
        intro x hx
        rw [List.mem_singleton.mp hx]
        simp
        exact fun hc => hne hc.symm
      rw [this]
      rfl



/-- Conditionally saving an idempotency response (the `match` on the
optional key) never touches the business tables. -/
theorem save_opt_tables (d : DB) (key : Option String)
    (rd : ResponseData) (now : Int) :
    (match key with
      | some k => save_idempotency_response d k rd now
      | none => d).users = d.users ∧
    (match key with
      | some k => save_idempotency_response d k rd now
      | none => d).plans = d.plans ∧
    (match key with
      | some k => save_idempotency_response d k rd now
      | none => d).installments = d.installments := by
  cases key with
  | none => exact ⟨rfl, rfl, rfl⟩
  | some k =>
      obtain ⟨a, b, c, -⟩ := save_idempotency_response_tables d k rd now
      exact ⟨a, b, c⟩

/-- Inversion of the success path of `repay_core`: the `ok` outcome
determines the post-state — matched installments become `PAID`, and the
user row flips to `NORMAL` exactly when no overdue installment of the
user remains and the user was a `DEBT_USER`. -/
theorem repay_core_ok_spec {db0 db1 : DB} {uid : String} {ids : List Nat}
    {key : Option String} {now : Int} {db' : DB} {r : ResponseData}
    (h : repay_core db0 db1 uid ids key now = (db', RepayResult.ok r)) :
    ∃ user, db1.users.find? (fun u => u.user_id == uid) = some user ∧
      db'.plans = db1.plans ∧
      db'.installments = db1.installments.map (fun i =>
        if repayMatch db1.plans uid ids i then
          { i with status := .PAID, paid_at := some now } else i) ∧
      db'.users =
        (if !(hasOverdueL db1.plans (db1.installments.map (fun i =>
              if repayMatch db1.plans uid ids i then
                { i with status := .PAID, paid_at := some now } else i))
              uid) && user.status == UserStatus.DEBT_USER then
          db1.users.map (fun u =>
            if u.user_id == uid then { u with status := .NORMAL } else u)
        else db1.users) := by
  unfold repay_core at h
  cases hf : db1.users.find? (fun u => u.user_id == uid) with
  | none => rw [hf] at h; simp at h
  | some user =>
      rw [hf] at h
      dsimp only at h
      split at h
      · simp at h
      · split at h
        · simp at h
        · refine ⟨user, rfl, ?_, ?_, ?_⟩ <;>
            · rw [Prod.mk.injEq] at h
              obtain ⟨hdb, -⟩ := h
              subst hdb
              first
                | · rw [(save_opt_tables _ key _ now).2.1]
                    split <;> rfl
                | · rw [(save_opt_tables _ key _ now).2.2]
                    split <;> rfl
                | · rw [(save_opt_tables _ key _ now).1]
                    split
                    · next hcond =>
                        have hcond2 : (!(hasOverdueL db1.plans (db1.installments.map (fun i => if repayMatch db1.plans uid ids i then { i with status := InstallmentStatus.PAID, paid_at := some now } else i)) uid) && user.status == UserStatus.DEBT_USER) = true := hcond
                        rw [if_pos hcond2]
                    · next hcond =>
                        have hcond2 : ¬ ((!(hasOverdueL db1.plans (db1.installments.map (fun i => if repayMatch db1.plans uid ids i then { i with status := InstallmentStatus.PAID, paid_at := some now } else i)) uid) && user.status == UserStatus.DEBT_USER) = true) := hcond
                        rw [if_neg hcond2]


/-- Pointwise-equal predicates agree under `List.any`. -/
theorem any_congr_mem {α : Type} {l : List α} {p q : α → Bool}
    (h : ∀ x ∈ l, p x = q x) : l.any p = l.any q := by
  induction l with
  | nil => rfl
  | cons a t ih =>
      rw [List.any_cons, List.any_cons, h a (List.mem_cons_self a t),
        ih (fun x hx => h x (List.mem_cons_of_mem a hx))]

/-- Inversion of the success path of `repay`, relative to the entry
state. -/
theorem repay_ok_spec {db : DB} {uid : String} {ids : List Nat}
    {key : Option String} {now : Int} {db' : DB} {r : ResponseData}
    (h : repay db uid ids key now = (db', RepayResult.ok r)) :
    ∃ user, db.users.find? (fun u => u.user_id == uid) = some user ∧
      db'.plans = db.plans ∧
      db'.installments = db.installments.map (fun i =>
        if repayMatch db.plans uid ids i then
          { i with status := .PAID, paid_at := some now } else i) ∧
      db'.users =
        (if !(hasOverdueL db.plans (db.installments.map (fun i =>
              if repayMatch db.plans uid ids i then
                { i with status := .PAID, paid_at := some now } else i))
              uid) && user.status == UserStatus.DEBT_USER then
          db.users.map (fun u =>
            if u.user_id == uid then { u with status := .NORMAL } else u)
        else db.users) := by
  unfold repay at h
  cases hk : key with
  | none =>
      rw [hk] at h
      exact repay_core_ok_spec h
  | some k =>
      rw [hk] at h
      dsimp only at h
      rcases hcc : check_idempotency db k now with ⟨dbc, cres⟩
      rw [hcc] at h
      obtain ⟨cu, cp, ci, -⟩ := check_idempotency_fst_tables db k now
      rw [hcc] at cu cp ci
      dsimp only at cu cp ci
      cases cres with
      | some r0 => simp at h
      | none =>
          obtain ⟨user, hfind, hplans, hinsts, husers⟩ :=
            repay_core_ok_spec h
          rw [cu, cp, ci] at husers
          rw [cu] at hfind
          rw [cp] at hplans
          rw [cp, ci] at hinsts
          exact ⟨user, hfind, hplans, hinsts, husers⟩


/-- The derived-status invariant of the spec: a user is a `DEBT_USER`
exactly when at least one installment across their plans is `OVERDUE`. -/
abbrev debtInvariant (db : DB) : Prop :=
  ∀ u ∈ db.users,
    (u.status = UserStatus.DEBT_USER ↔ hasOverdue db u.user_id = true)

/-- The overdue sweep preserves the derived-status invariant. -/
theorem debtInvariant_sweep (db : DB) (today : Int)
    (hinv : debtInvariant db) :
    debtInvariant (sweep_overdue db today).1 := by
  unfold sweep_overdue
  dsimp only
  split
  · exact hinv
  · intro u' hu'
    obtain ⟨u, hu, rfl⟩ := List.mem_map.mp hu'
    unfold hasOverdue
    dsimp only
    split
    · next hcond =>
        obtain ⟨hcontains, -⟩ := Bool.and_eq_true_iff.mp hcond
        obtain ⟨i, hi, hdue, hown⟩ :=
          (mem_affected_iff db.plans db.installments today u.user_id).mp
            hcontains
        have hov := (hasOverdueL_after_mark db.plans db.installments
          today u.user_id).mpr ⟨i, hi, hown, Or.inr hdue⟩
        exact ⟨fun _ => hov, fun _ => rfl⟩
    · next hcond =>
        by_cases hdebt : u.status = UserStatus.DEBT_USER
        · have hov0 : hasOverdueL db.plans db.installments u.user_id
              = true := (hinv u hu).mp hdebt
          obtain ⟨i, hi, hown, hst⟩ :=
            (hasOverdueL_iff db.plans db.installments u.user_id).mp hov0
          have hov := (hasOverdueL_after_mark db.plans db.installments
            today u.user_id).mpr ⟨i, hi, hown, Or.inl hst⟩
          exact ⟨fun _ => hov, fun _ => hdebt⟩
        · have hnc : ¬ (((db.installments.filter
              (sweepDue today)).filterMap
              (ownerOf db.plans)).dedup.contains u.user_id = true) := by
            intro hc
            exact hcond (Bool.and_eq_true_iff.mpr
              ⟨hc, bne_iff_ne.mpr hdebt⟩)
          constructor
          · intro hst
            exact absurd hst hdebt
          · intro hov
            obtain ⟨i, hi, hown, hcase⟩ :=
              (hasOverdueL_after_mark db.plans db.installments today
                u.user_id).mp hov
            cases hcase with
            | inl hst =>
                exact absurd ((hinv u hu).mpr
                  ((hasOverdueL_iff db.plans db.installments
                    u.user_id).mpr ⟨i, hi, hown, hst⟩)) hdebt
            | inr hdue =>
                exact absurd ((mem_affected_iff db.plans db.installments
                  today u.user_id).mpr ⟨i, hi, hdue, hown⟩) hnc



/-- A successful repayment preserves the derived-status invariant. -/
theorem debtInvariant_repay (db : DB)
    (husers : (db.users.map (fun u => u.user_id)).Nodup)
    (hinv : debtInvariant db)
    {uid : String} {ids : List Nat} {key : Option String} {now : Int}
    {db' : DB} {r : ResponseData}
    (h : repay db uid ids key now = (db', RepayResult.ok r)) :
    debtInvariant db' := by
  obtain ⟨user, hfind, hplans, hinsts, husers'⟩ := repay_ok_spec h
  have hother : ∀ v : String, v ≠ uid →
      hasOverdueL db.plans (db.installments.map (fun i => if repayMatch db.plans uid ids i then { i with status := InstallmentStatus.PAID, paid_at := some now } else i)) v
      = hasOverdueL db.plans db.installments v := by
    intro v hv
    unfold hasOverdueL
    rw [List.any_map]
    apply any_congr_mem
    intro i hi
    by_cases hm : repayMatch db.plans uid ids i = true
    · have hown : ownerOf db.plans i = some uid := by
        unfold repayMatch at hm
        simp only [Bool.and_eq_true_iff, beq_iff_eq] at hm
        exact hm.1.2
      have hne : (ownerOf db.plans i == some v) = false :=
        beq_eq_false_iff_ne.mpr (by
          rw [hown]
          exact fun hh => hv (Option.some.inj hh).symm)
      rw [Function.comp_apply, if_pos hm]
      show (ownerOf db.plans i == some v &&
        (InstallmentStatus.PAID == InstallmentStatus.OVERDUE)) = _
      rw [hne]
      simp
    · rw [Function.comp_apply, if_neg hm]
  have hrem_imp :
      hasOverdueL db.plans (db.installments.map (fun i => if repayMatch db.plans uid ids i then { i with status := InstallmentStatus.PAID, paid_at := some now } else i)) uid = true →
      hasOverdueL db.plans db.installments uid = true := by
    intro hrem
    obtain ⟨i, hi, hown, hst⟩ :=
      (hasOverdueL_iff db.plans _ uid).mp hrem
    obtain ⟨j, hj, rfl⟩ := List.mem_map.mp hi
    by_cases hm : repayMatch db.plans uid ids j = true
    · rw [if_pos hm] at hst
      exact absurd hst (by simp)
    · rw [if_neg hm] at hown hst
      exact (hasOverdueL_iff db.plans db.installments uid).mpr
        ⟨j, hj, hown, hst⟩
  intro u' hu'
  unfold hasOverdue
  rw [hplans, hinsts]
  rw [husers'] at hu'
  split at hu'
  · next hcond =>
      obtain ⟨hnot, -⟩ := Bool.and_eq_true_iff.mp hcond
      have hremf :
          hasOverdueL db.plans (db.installments.map (fun i => if repayMatch db.plans uid ids i then { i with status := InstallmentStatus.PAID, paid_at := some now } else i)) uid = false := by
        rwa [Bool.not_eq_true'] at hnot
      obtain ⟨u, hu, rfl⟩ := List.mem_map.mp hu'
      split
      · next hid =>
          have hid' : u.user_id = uid := beq_iff_eq.mp hid
          constructor
          · intro hx
            exact absurd hx (by simp)
          · intro hov
            rw [hid', hremf] at hov
            exact absurd hov (by simp)
      · next hid =>
          have hne : u.user_id ≠ uid := by simpa using hid
          rw [hother u.user_id hne]
          exact hinv u hu
  · next hcond =>
      by_cases hid : u'.user_id = uid
      · by_cases hrem :
            hasOverdueL db.plans (db.installments.map (fun i => if repayMatch db.plans uid ids i then { i with status := InstallmentStatus.PAID, paid_at := some now } else i)) uid = true
        · have hdb : hasOverdueL db.plans db.installments uid = true :=
            hrem_imp hrem
          have hst : u'.status = UserStatus.DEBT_USER :=
            (hinv u' hu').mpr (by rw [hid]; exact hdb)
          constructor
          · intro _
            rw [hid]
            exact hrem
          · intro _
            exact hst
        · have hremf := Bool.eq_false_iff.mpr hrem
          have hbd : ¬ (user.status == UserStatus.DEBT_USER) = true := by
            intro hb
            exact hcond (Bool.and_eq_true_iff.mpr
              ⟨by rw [hremf]; rfl, hb⟩)
          have huser_ne : user.status ≠ UserStatus.DEBT_USER := by
            simpa using hbd
          have hueq : u' = user := user_eq_of_find? husers hfind hu' hid
          constructor
          · intro hst
            exact absurd (hueq ▸ hst) huser_ne
          · intro hov
            rw [hid] at hov
            exact absurd hov hrem
      · rw [hother u'.user_id hid]
        exact hinv u' hu'


/-- A successful plan creation preserves the derived-status invariant:
the new installments are all `UPCOMING` and the new plan's id is fresh. -/
theorem debtInvariant_create_plan (db : DB) (hinv : debtInvariant db)
    {req : CreatePlanRequest} {today now : Int} {planId instBase : Nat}
    {db' : DB} {r : ResponseData}
    (hfresh : ∀ i ∈ db.installments, i.plan_id ≠ planId)
    (h : create_plan db req today now planId instBase
          = (db', PlanCreateResult.created r)) :
    debtInvariant db' := by
  obtain ⟨user, -, -, -, hu, hp, hi, -⟩ := create_plan_created_spec h
  have hkey : ∀ v,
      hasOverdueL (db.plans ++
          [⟨planId, user.user_id, req.total_amount, PlanStatus.ACTIVE⟩])
        (db.installments ++ planInstallments req today planId instBase) v
      = hasOverdueL db.plans db.installments v := by
    intro v
    unfold hasOverdueL
    rw [List.any_append]
    have hnew : (planInstallments req today planId instBase).any
        (fun i => ownerOf (db.plans ++
          [⟨planId, user.user_id, req.total_amount, PlanStatus.ACTIVE⟩]) i
            == some v && i.status == InstallmentStatus.OVERDUE)
        = false := by
      rw [List.any_eq_false]
      intro x hx
      unfold planInstallments at hx
      obtain ⟨j, -, rfl⟩ := List.mem_map.mp hx
      simp
    rw [hnew, Bool.or_false]
    apply any_congr_mem
    intro i hi2
    rw [ownerOf_append_fresh
      (p := ⟨planId, user.user_id, req.total_amount, PlanStatus.ACTIVE⟩)
      (hfresh i hi2)]
  intro u' hu'
  rw [hu] at hu'
  unfold hasOverdue
  rw [hp, hi, hkey]
  exact hinv u' hu'

/-- C1: the derived-status invariant — `status = DEBT_USER` iff at least
one installment across the user's plans is `OVERDUE` — is preserved by
every run of the overdue sweep, every successful repayment, and every
successful plan creation (with fresh plan id), assuming duplicate-free
`user_id`s (the primary-key constraint). -/
theorem C1_debt_status_invariant (db : DB) (today : Int)
    (husers : (db.users.map (fun u => u.user_id)).Nodup)
    (hinv : debtInvariant db) :
    debtInvariant (sweep_overdue db today).1
    ∧ (∀ uid ids key now db' r,
        repay db uid ids key now = (db', RepayResult.ok r) →
        debtInvariant db')
    ∧ (∀ req today2 now planId instBase db' r,
        (∀ i ∈ db.installments, i.plan_id ≠ planId) →
        create_plan db req today2 now planId instBase
          = (db', PlanCreateResult.created r) →
        debtInvariant db') :=
  ⟨debtInvariant_sweep db today hinv,
   fun _ _ _ _ _ _ h => debtInvariant_repay db husers hinv h,
   fun _ _ _ _ _ _ _ hfresh h =>
     debtInvariant_create_plan db hinv hfresh h⟩

/-- A concrete store satisfying the invariant: debt user "u" with an
overdue installment and an upcoming one, and normal user "w". -/
def C1db : DB :=
  ⟨[⟨"u", .DEBT_USER⟩, ⟨"w", .NORMAL⟩], [⟨5, "u", 90000, .ACTIVE⟩],
   [⟨1, 5, 30000, 0, .OVERDUE, none⟩, ⟨2, 5, 30000, 40, .UPCOMING, none⟩],
   [], []⟩

/-- Witness for C1: the invariant holds after a concrete sweep, a
concrete successful repayment, and a concrete successful plan creation. -/
theorem C1_debt_status_invariant_witness :
    debtInvariant (sweep_overdue C1db 10).1
    ∧ debtInvariant (repay C1db "u" [1] none 7).1
    ∧ debtInvariant
        (create_plan C1db ⟨"w", 90000, 3, none⟩ 0 0 7 100).1 := by
  obtain ⟨h1, h2, h3⟩ :=
    C1_debt_status_invariant C1db 10 (by decide) (by decide)
  refine ⟨h1, ?_, ?_⟩
  · exact h2 "u" [1] none 7 (repay C1db "u" [1] none 7).1
      (ResponseData.repayPayload 1 UserStatus.NORMAL) (by decide)
  · exact h3 ⟨"w", 90000, 3, none⟩ 0 0 7 100
      (create_plan C1db ⟨"w", 90000, 3, none⟩ 0 0 7 100).1
      (ResponseData.planPayload ⟨7, "w", 90000, PlanStatus.ACTIVE⟩
        (planInstallments ⟨"w", 90000, 3, none⟩ 0 7 100)
        ⟨"w", UserStatus.NORMAL⟩)
      (by decide) (by decide)

end BNPL
